import Mathlib

/-!
Shallow embedding of the schema field extractor
(`extractCustomSchemaFields` / `extractFieldMetadata` / `deriveStep`),
which turns a pipeline config schema into a mapping of custom-field
descriptors for dynamic rendering.

JavaScript objects are modelled as association lists in declaration
order, `undefined`-able values as `Option`, JS numbers as `Rat`, and
the opaque JSON values appearing in `enum` lists and defaults as a
small inductive `JValue`.  JS truthiness of guarded values is modelled
explicitly: an absent value and the empty string are falsy, every
array and object (including the empty ones) is truthy.
-/

/-- Opaque JSON-like values (enum members, defaults). -/
inductive JValue where
  | str (s : String)
  | num (q : Rat)
  | jbool (b : Bool)
  | null
deriving DecidableEq, Repr

/-- One entry of the schema's property map:
`{type?, default?, description?, minimum?, maximum?, enum?, $ref?}`. -/
structure PipelineSchemaProperty where
  type : Option String
  default : Option JValue
  description : Option String
  minimum : Option Rat
  maximum : Option Rat
  enum : Option (List JValue)
  ref : Option String
deriving DecidableEq, Repr

/-- An entry of the `$defs` table; only its optional `enum` is inspected. -/
structure SchemaDefinition where
  enum : Option (List JValue)
deriving DecidableEq, Repr

/-- The pipeline config schema: optional property map and optional `$defs`. -/
structure PipelineConfigSchema where
  properties : Option (List (String × PipelineSchemaProperty))
  defs : Option (List (String × SchemaDefinition))
deriving DecidableEq, Repr

/-- The five semantic field kinds of `SchemaFieldMetadata.type`. -/
inductive FieldType where
  | boolean
  | integer
  | number
  | string
  | enum
deriving DecidableEq, Repr

/-- The output field descriptor (`SchemaFieldMetadata`). -/
structure SchemaFieldMetadata where
  name : String
  type : FieldType
  default : Option JValue
  description : Option String
  minimum : Option Rat
  maximum : Option Rat
  enumValues : Option (List JValue)
  step : Option Rat
deriving DecidableEq, Repr

/-- `HARDCODED_FIELDS`: fields with dedicated UI controls, never rendered
dynamically. -/
def HARDCODED_FIELDS : List String :=
  [ "height", "width", "seed", "denoising_steps", "vae_type", "noise_scale",
    "noise_controller", "manage_cache", "kv_cache_attention_bias",
    "quantization", "ref_images", "vace_context_scale", "input_size",
    "ctrl_input", "images", "base_seed" ]

/-- The exclusion set: `new Set([...HARDCODED_FIELDS, ...excludeFields])`,
kept as a list whose membership is the set membership. -/
def allExcludedFields (excludeFields : List String) : List String :=
  HARDCODED_FIELDS ++ excludeFields

/-- First-match lookup in a JS object modelled as an association list. -/
def lookupDef (defs : List (String × SchemaDefinition)) (key : String) :
    Option SchemaDefinition :=
  (defs.find? (fun p => p.1 == key)).map Prod.snd

/-- `refPath.split("/")` on the character list: splits at every `/`,
keeping empty segments, exactly as the JS single-character split does
(`"a/".split("/") = ["a", ""]`, `"".split("/") = [""]`). -/
def splitSlashAux : List Char → List (List Char)
  | [] => [[]]
  | c :: cs =>
      match splitSlashAux cs with
      | s :: ss => if c = '/' then [] :: s :: ss else (c :: s) :: ss
      | [] => [[c]]

/-- `refPath.split("/")` as a list of strings. -/
def jsSplitSlash (refPath : String) : List String :=
  (splitSlashAux refPath.data).map String.mk

/-- `refPath.split("/").pop()` followed by `|| ""`: the trailing segment of
the reference path (the empty string when that segment is itself empty;
the split of any string is non-empty, so `pop` always yields a segment). -/
def refLookupKey (refPath : String) : String :=
  ((jsSplitSlash refPath).getLast?).getD ""

/-- `deriveStep(type, minimum, maximum)`: step = 1 for integers; for numbers
0.01 when both bounds exist and the range is below 1, else 0.1; otherwise
undefined. -/
def deriveStep (type : FieldType) (minimum maximum : Option Rat) :
    Option Rat :=
  if type = FieldType.integer then
    some 1
  else if type = FieldType.number then
    match minimum, maximum with
    | some mn, some mx =>
        if mx - mn < 1 then some (1 / 100) else some (1 / 10)
    | _, _ => some (1 / 10)
  else
    none

/-- The `$ref` branch of `extractFieldMetadata`: under the JS guard
`property.$ref && defs` (a present, non-empty reference string and a present
defs table), resolve the trailing path segment in the defs table; when the
resolved definition carries an `enum` field (any array is truthy, the empty
one included), produce the enum descriptor; otherwise no result. -/
def resolveRef (fieldName : String) (property : PipelineSchemaProperty)
    (defs : Option (List (String × SchemaDefinition))) :
    Option SchemaFieldMetadata :=
  match property.ref, defs with
  | some refPath, some ds =>
      if refPath = "" then none
      else
        match lookupDef ds (refLookupKey refPath) with
        | some definition =>
            match definition.enum with
            | some es =>
                some { name := fieldName
                       type := FieldType.enum
                       default := property.default
                       description := property.description
                       minimum := none
                       maximum := none
                       enumValues := some es
                       step := none }
            | none => none
        | none => none
  | _, _ => none

/-- The `switch (property.type)` of `extractFieldMetadata`: the base type,
or `none` for unsupported types.  A present inline `enum` array (empty
included) turns a `string` into an `enum`. -/
def classifyType (property : PipelineSchemaProperty) : Option FieldType :=
  match property.type with
  | none => none
  | some t =>
      if t = "boolean" then some FieldType.boolean
      else if t = "integer" then some FieldType.integer
      else if t = "number" then some FieldType.number
      else if t = "string" then
        if property.enum.isSome then some FieldType.enum
        else some FieldType.string
      else none

/-- `extractFieldMetadata(fieldName, property, defs)`: the `$ref` branch
first; on fall-through, classify the declared type and build the descriptor,
copying `default`, `description`, `minimum`, `maximum` and the inline `enum`
verbatim and deriving the step. -/
def extractFieldMetadata (fieldName : String)
    (property : PipelineSchemaProperty)
    (defs : Option (List (String × SchemaDefinition))) :
    Option SchemaFieldMetadata :=
  match resolveRef fieldName property defs with
  | some m => some m
  | none =>
      match classifyType property with
      | none => none
      | some ty =>
          some { name := fieldName
                 type := ty
                 default := property.default
                 description := property.description
                 minimum := property.minimum
                 maximum := property.maximum
                 enumValues := property.enum
                 step := deriveStep ty property.minimum property.maximum }

/-- `extractCustomSchemaFields(configSchema, excludeFields)`: empty result
when the schema or its property map is absent; otherwise iterate the
properties in declared order, skip excluded names, and keep the extracted
metadata of the rest, keyed by field name. -/
def extractCustomSchemaFields (configSchema : Option PipelineConfigSchema)
    (excludeFields : List String) :
    List (String × SchemaFieldMetadata) :=
  match configSchema with
  | none => []
  | some cs =>
      match cs.properties with
      | none => []
      | some props =>
          props.filterMap (fun entry =>
            if (allExcludedFields excludeFields).contains entry.1 then
              none
            else
              (extractFieldMetadata entry.1 entry.2 cs.defs).map
                (fun m => (entry.1, m)))

/-!
Throw-instrumented variants.  JS can only fail here by dereferencing an
`undefined` value (a `TypeError`); the instrumented functions mirror the
source control flow but make every such dereference an explicit
`Except.error`, so that "never raises" becomes "always returns `Except.ok`".
-/

/-- Dereference of a possibly-`undefined` string (`refPath.split(...)` on
`property.$ref`): throws when the value is `undefined`. -/
def derefString (o : Option String) : Except String String :=
  match o with
  | some s => Except.ok s
  | none => Except.error "TypeError: undefined dereference"

/-- Dereference of a possibly-`undefined` defs table (`defs[...]`). -/
def derefDefsTable (o : Option (List (String × SchemaDefinition))) :
    Except String (List (String × SchemaDefinition)) :=
  match o with
  | some d => Except.ok d
  | none => Except.error "TypeError: undefined dereference"

/-- Dereference of a possibly-`undefined` property map
(`Object.entries(configSchema.properties)`). -/
def derefProperties (o : Option (List (String × PipelineSchemaProperty))) :
    Except String (List (String × PipelineSchemaProperty)) :=
  match o with
  | some p => Except.ok p
  | none => Except.error "TypeError: undefined dereference"

/-- JS truthiness of an optional string (`property.$ref`): `undefined` and
the empty string are falsy. -/
def strOptTruthy (o : Option String) : Bool :=
  match o with
  | some s => s != ""
  | none => false

/-- The `$ref` branch with explicit throw points: the guard
`property.$ref && defs` is evaluated by truthiness, and only then are the
two guarded values dereferenced. -/
def resolveRefE (fieldName : String) (property : PipelineSchemaProperty)
    (defs : Option (List (String × SchemaDefinition))) :
    Except String (Option SchemaFieldMetadata) :=
  if strOptTruthy property.ref && defs.isSome then do
    let refPath ← derefString property.ref
    let ds ← derefDefsTable defs
    match lookupDef ds (refLookupKey refPath) with
    | some definition =>
        match definition.enum with
        | some es =>
            pure (some { name := fieldName
                         type := FieldType.enum
                         default := property.default
                         description := property.description
                         minimum := none
                         maximum := none
                         enumValues := some es
                         step := none })
        | none => pure none
    | none => pure none
  else
    pure none

/-- `extractFieldMetadata` with explicit throw points. -/
def extractFieldMetadataE (fieldName : String)
    (property : PipelineSchemaProperty)
    (defs : Option (List (String × SchemaDefinition))) :
    Except String (Option SchemaFieldMetadata) := do
  let refResult : Option SchemaFieldMetadata ←
    resolveRefE fieldName property defs
  match refResult with
  | some m => pure (some m)
  | none =>
      match classifyType property with
      | none => pure none
      | some ty =>
          pure (some { name := fieldName
                       type := ty
                       default := property.default
                       description := property.description
                       minimum := property.minimum
                       maximum := property.maximum
                       enumValues := property.enum
                       step := deriveStep ty property.minimum property.maximum })

/-- The `for` loop of `extractCustomSchemaFields` with explicit throw
points, one property at a time in declared order. -/
def extractLoopE (excludeFields : List String)
    (defs : Option (List (String × SchemaDefinition))) :
    List (String × PipelineSchemaProperty) →
    Except String (List (String × SchemaFieldMetadata))
  | [] => Except.ok []
  | entry :: rest =>
      if (allExcludedFields excludeFields).contains entry.1 then
        extractLoopE excludeFields defs rest
      else do
        let md ← extractFieldMetadataE entry.1 entry.2 defs
        let tail ← extractLoopE excludeFields defs rest
        match md with
        | some m => Except.ok ((entry.1, m) :: tail)
        | none => Except.ok tail

/-- `extractCustomSchemaFields` with explicit throw points: the early
return fires unless both the schema and its property map are truthy, and
only then is the property map dereferenced and iterated. -/
def extractCustomSchemaFieldsE (configSchema : Option PipelineConfigSchema)
    (excludeFields : List String) :
    Except String (List (String × SchemaFieldMetadata)) :=
  match configSchema with
  | none => Except.ok []
  | some cs =>
      if cs.properties.isSome then do
        let props ← derefProperties cs.properties
        extractLoopE excludeFields cs.defs props
      else
        Except.ok []

/-!
Concrete sample inputs used by the witness theorems and counterexamples.
-/

/-- `{type: "boolean", default: true}`. -/
def sampleBoolProp : PipelineSchemaProperty :=
  { type := some "boolean", default := some (JValue.jbool true)
    description := none, minimum := none, maximum := none
    enum := none, ref := none }

/-- `{type: "integer", minimum: 0, maximum: 10}`. -/
def sampleIntProp : PipelineSchemaProperty :=
  { type := some "integer", default := none, description := none
    minimum := some 0, maximum := some 10, enum := none, ref := none }

/-- `{type: "number", minimum: 0, maximum: 0.8}`. -/
def sampleNumProp : PipelineSchemaProperty :=
  { type := some "number", default := none, description := none
    minimum := some 0, maximum := some (4 / 5), enum := none, ref := none }

/-- `{type: "object"}`: an unsupported declared type. -/
def sampleObjProp : PipelineSchemaProperty :=
  { type := some "object", default := none, description := none
    minimum := none, maximum := none, enum := none, ref := none }

/-- `{type: "integer", enum: [5]}`: an integer property that also carries
an inline enumeration. -/
def sampleIntEnumProp : PipelineSchemaProperty :=
  { type := some "integer", default := none, description := none
    minimum := none, maximum := none, enum := some [JValue.num 5], ref := none }

/-- The sampler definition `{enum: ["euler", "dpm++"]}`. -/
def samplerDef : SchemaDefinition :=
  { enum := some [JValue.str "euler", JValue.str "dpm++"] }

/-- A defs table mapping `"Sampler"` to the sampler definition. -/
def sampleDefsTable : List (String × SchemaDefinition) :=
  [("Sampler", samplerDef)]

/-- A pure-reference property pointing at `#/$defs/Sampler`, which also
declares numeric bounds (to exercise the bound-dropping on the reference
path). -/
def sampleRefProp : PipelineSchemaProperty :=
  { type := none, default := some (JValue.str "euler")
    description := some "sampler choice", minimum := some 0, maximum := some 1
    enum := none, ref := some "#/$defs/Sampler" }

/-- A schema with one non-excluded property `"foo"`, used by witnesses. -/
def sampleSchema : PipelineConfigSchema :=
  { properties := some [("foo", sampleNumProp)], defs := none }

/-- A schema declaring `"height"`, `"cfg_scale"` and `"foo"`, with the
sampler defs table. -/
def sampleSchemaFull : PipelineConfigSchema :=
  { properties :=
      some [("height", sampleIntProp), ("cfg_scale", sampleNumProp),
            ("foo", sampleIntEnumProp), ("sampler", sampleRefProp)]
    defs := some sampleDefsTable }

/-- Membership test for the output keys: for the exclusion theorems. -/
def keepsField (excludeFields : List String)
    (defs : Option (List (String × SchemaDefinition)))
    (entry : String × PipelineSchemaProperty) : Bool :=
  !((allExcludedFields excludeFields).contains entry.1)
    && (extractFieldMetadata entry.1 entry.2 defs).isSome

/-!
Helper lemmas shared by the claim theorems.
-/

/-- Every successful reference resolution yields the enum record: type
`enum`, `default`/`description` from the property, no bounds, no step,
and `enumValues` from some definition enumeration. -/
theorem resolveRef_some_shape (f : String) (p : PipelineSchemaProperty)
    (d : Option (List (String × SchemaDefinition))) (m : SchemaFieldMetadata)
    (h : resolveRef f p d = some m) :
    ∃ es, m = { name := f, type := FieldType.enum, default := p.default,
                description := p.description, minimum := none,
                maximum := none, enumValues := some es, step := none } := by
  unfold resolveRef at h
  split at h
  · split at h
    · exact Option.noConfusion h
    · split at h
      · split at h
        · exact ⟨_, (Option.some_inj.mp h).symm⟩
        · exact Option.noConfusion h
      · exact Option.noConfusion h
  · exact Option.noConfusion h

/-- Every successful extraction is either the reference record or the
classifier record. -/
theorem extractFieldMetadata_some_cases (f : String)
    (p : PipelineSchemaProperty)
    (d : Option (List (String × SchemaDefinition))) (m : SchemaFieldMetadata)
    (h : extractFieldMetadata f p d = some m) :
    resolveRef f p d = some m
    ∨ (resolveRef f p d = none ∧ ∃ ty, classifyType p = some ty ∧
        m = { name := f, type := ty, default := p.default,
              description := p.description, minimum := p.minimum,
              maximum := p.maximum, enumValues := p.enum,
              step := deriveStep ty p.minimum p.maximum }) := by
  unfold extractFieldMetadata at h
  split at h
  · rename_i m0 hr
    exact Or.inl (hr.trans h)
  · rename_i hr
    split at h
    · exact Option.noConfusion h
    · rename_i ty hc
      exact Or.inr ⟨hr, ty, hc, (Option.some_inj.mp h).symm⟩

/-- When the reference branch fails, `extractFieldMetadata` is the
classifier record (or nothing). -/
theorem extractFieldMetadata_of_resolveRef_none (f : String)
    (p : PipelineSchemaProperty)
    (d : Option (List (String × SchemaDefinition)))
    (h : resolveRef f p d = none) :
    extractFieldMetadata f p d = (classifyType p).map (fun ty =>
      { name := f, type := ty, default := p.default,
        description := p.description, minimum := p.minimum,
        maximum := p.maximum, enumValues := p.enum,
        step := deriveStep ty p.minimum p.maximum }) := by
  unfold extractFieldMetadata
  rw [h]
  cases classifyType p <;> rfl

/-- A classifier result of `string` forces an absent inline enum. -/
theorem classifyType_string_no_enum (p : PipelineSchemaProperty)
    (h : classifyType p = some FieldType.string) : p.enum = none := by
  cases he : p.enum with
  | none => rfl
  | some es =>
      unfold classifyType at h
      cases hp : p.type with
      | none => rw [hp] at h; exact Option.noConfusion h
      | some t =>
          rw [hp, he] at h
          by_cases h1 : t = "boolean" <;> by_cases h2 : t = "integer" <;>
            by_cases h3 : t = "number" <;> by_cases h4 : t = "string" <;>
            simp [h1, h2, h3, h4] at h

/-- A classifier result of `enum` forces a present inline enum. -/
theorem classifyType_enum_has_enum (p : PipelineSchemaProperty)
    (h : classifyType p = some FieldType.enum) : ∃ es, p.enum = some es := by
  cases he : p.enum with
  | some es => exact ⟨es, rfl⟩
  | none =>
      unfold classifyType at h
      cases hp : p.type with
      | none => rw [hp] at h; exact Option.noConfusion h
      | some t =>
          rw [hp, he] at h
          by_cases h1 : t = "boolean" <;> by_cases h2 : t = "integer" <;>
            by_cases h3 : t = "number" <;> by_cases h4 : t = "string" <;>
            simp [h1, h2, h3, h4] at h

/-- Any key of the output mapping passed the exclusion filter. -/
theorem mem_keys_not_excluded (configSchema : Option PipelineConfigSchema)
    (excludeFields : List String) (k : String)
    (h : k ∈ (extractCustomSchemaFields configSchema excludeFields).map
          Prod.fst) :
    ¬ k ∈ allExcludedFields excludeFields := by
  intro hk
  match configSchema with
  | none => simp [extractCustomSchemaFields] at h
  | some cs =>
      match hp : cs.properties with
      | none => simp [extractCustomSchemaFields, hp] at h
      | some props =>
          simp only [extractCustomSchemaFields, hp, List.mem_map,
            List.mem_filterMap] at h
          obtain ⟨b, ⟨entry, hentry, hfb⟩, hbk⟩ := h
          by_cases hc : (allExcludedFields excludeFields).contains entry.1
          · rw [if_pos hc] at hfb
            exact Option.noConfusion hfb
          · rw [if_neg hc] at hfb
            obtain ⟨m, hm, hb⟩ := Option.map_eq_some'.mp hfb
            rw [← hb] at hbk
            rw [← hbk] at hk
            exact hc (List.elem_eq_true_of_mem hk)

/-- The output keys are exactly the declared property names that pass the
exclusion filter and classify, in declared order. -/
theorem extract_keys_in_declared_order
    (props : List (String × PipelineSchemaProperty))
    (d : Option (List (String × SchemaDefinition)))
    (excludeFields : List String) :
    (extractCustomSchemaFields (some { properties := some props, defs := d })
        excludeFields).map Prod.fst
      = (props.filter (keepsField excludeFields d)).map Prod.fst := by
  induction props with
  | nil => rfl
  | cons entry rest ih =>
      simp only [extractCustomSchemaFields] at ih ⊢
      rw [List.filterMap_cons, List.filter_cons]
      by_cases hc : (allExcludedFields excludeFields).contains entry.1
      · simp only [if_pos hc, keepsField, hc, Bool.not_true,
          Bool.false_and, if_neg]
        exact ih
      · cases hm : extractFieldMetadata entry.1 entry.2 d with
        | none =>
            simp only [if_neg hc, hm, Option.map_none', keepsField, hc,
              Bool.not_false, Bool.true_and, Option.isSome_none, if_neg]
            exact ih
        | some m =>
            simp only [if_neg hc, hm, Option.map_some', keepsField, hc,
              Bool.not_false, Bool.true_and, Option.isSome_some, if_pos,
              List.map_cons]
            exact congrArg (List.cons entry.1) ih

/-- The throw-instrumented reference branch never throws and agrees with
the pure one: the dereferences sit behind the truthiness guard. -/
theorem resolveRefE_ok (f : String) (p : PipelineSchemaProperty)
    (d : Option (List (String × SchemaDefinition))) :
    resolveRefE f p d = Except.ok (resolveRef f p d) := by
  unfold resolveRefE resolveRef
  cases hr : p.ref with
  | none =>
      cases d <;> simp [strOptTruthy, Pure.pure, Except.pure]
  | some refPath =>
      cases d with
      | none => simp [strOptTruthy, Pure.pure, Except.pure]
      | some ds =>
          by_cases he : refPath = ""
          · simp [strOptTruthy, he, Pure.pure, Except.pure]
          · have ht : strOptTruthy (some refPath) = true := by
              simp [strOptTruthy, he]
            simp only [ht, Option.isSome_some, Bool.and_self, if_pos,
              if_neg he, derefString, derefDefsTable, Bind.bind,
              Except.bind]
            cases lookupDef ds (refLookupKey refPath) with
            | none => rfl
            | some definition =>
                cases hde : definition.enum <;>
                  simp [hde, Pure.pure, Except.pure]

/-- The throw-instrumented metadata extraction never throws and agrees
with the pure one. -/
theorem extractFieldMetadataE_ok (f : String) (p : PipelineSchemaProperty)
    (d : Option (List (String × SchemaDefinition))) :
    extractFieldMetadataE f p d = Except.ok (extractFieldMetadata f p d) := by
  unfold extractFieldMetadataE extractFieldMetadata
  rw [resolveRefE_ok]
  cases resolveRef f p d with
  | some m => rfl
  | none => cases classifyType p <;> rfl

/-- The throw-instrumented property loop never throws and agrees with the
pure filter-map over the declared properties. -/
theorem extractLoopE_ok (excludeFields : List String)
    (d : Option (List (String × SchemaDefinition)))
    (props : List (String × PipelineSchemaProperty)) :
    extractLoopE excludeFields d props
      = Except.ok (props.filterMap (fun entry =>
          if (allExcludedFields excludeFields).contains entry.1 then none
          else (extractFieldMetadata entry.1 entry.2 d).map
            (fun m => (entry.1, m)))) := by
  induction props with
  | nil => rfl
  | cons entry rest ih =>
      unfold extractLoopE
      rw [List.filterMap_cons]
      by_cases hc : (allExcludedFields excludeFields).contains entry.1
      · rw [if_pos hc, if_pos hc, ih]
      · rw [if_neg hc, if_neg hc]
        simp only [Bind.bind, Except.bind, extractFieldMetadataE_ok, ih]
        cases extractFieldMetadata entry.1 entry.2 d <;> rfl

/-!
The claim theorems.
-/

/-- C1: no key of the mapping returned by `extractCustomSchemaFields` is a
member of the exclusion set (`HARDCODED_FIELDS` unioned with the
caller-supplied list); in particular a property named `height` is always
absent from the output, and passing `["cfg_scale"]` as extra exclusions
removes `cfg_scale` from the output regardless of its classification. -/
theorem C1_exclusion_invariant :
    (∀ configSchema excludeFields k,
        k ∈ (extractCustomSchemaFields configSchema excludeFields).map
              Prod.fst →
        ¬ k ∈ allExcludedFields excludeFields)
    ∧ (∀ configSchema excludeFields,
        ¬ "height" ∈
          (extractCustomSchemaFields configSchema excludeFields).map
            Prod.fst)
    ∧ (∀ configSchema,
        ¬ "cfg_scale" ∈
          (extractCustomSchemaFields configSchema ["cfg_scale"]).map
            Prod.fst) := by
  refine ⟨mem_keys_not_excluded, ?_, ?_⟩
  · intro cs excl h
    exact mem_keys_not_excluded cs excl "height" h
      (by simp [allExcludedFields, HARDCODED_FIELDS])
  · intro cs h
    exact mem_keys_not_excluded cs ["cfg_scale"] "cfg_scale" h
      (by simp [allExcludedFields])

/-- Witness for C1: the concrete schema key `"foo"` is produced and is
indeed outside the exclusion set. -/
theorem C1_exclusion_invariant_witness :
    "foo" ∈ (extractCustomSchemaFields (some sampleSchema) []).map Prod.fst
    ∧ ¬ "foo" ∈ allExcludedFields [] :=
  ⟨by decide,
   C1_exclusion_invariant.1 (some sampleSchema) [] "foo" (by decide)⟩

/-- C2: for a property not classified by reference resolution, the type
classifier maps `boolean`/`integer`/`number` to themselves, `string` with
a non-empty inline enumeration to `enum` (with its values), `string`
without an enumeration to `string`, and an absent or unsupported declared
type to no descriptor. -/
theorem C2_type_classifier (fieldName : String)
    (property : PipelineSchemaProperty)
    (defs : Option (List (String × SchemaDefinition)))
    (h : resolveRef fieldName property defs = none) :
    (property.type = some "boolean" →
      (extractFieldMetadata fieldName property defs).map
        SchemaFieldMetadata.type = some FieldType.boolean)
    ∧ (property.type = some "integer" →
      (extractFieldMetadata fieldName property defs).map
        SchemaFieldMetadata.type = some FieldType.integer)
    ∧ (property.type = some "number" →
      (extractFieldMetadata fieldName property defs).map
        SchemaFieldMetadata.type = some FieldType.number)
    ∧ (∀ es, property.type = some "string" → property.enum = some es →
        es ≠ [] →
        ∃ m, extractFieldMetadata fieldName property defs = some m ∧
          m.type = FieldType.enum ∧ m.enumValues = some es)
    ∧ (property.type = some "string" → property.enum = none →
      (extractFieldMetadata fieldName property defs).map
        SchemaFieldMetadata.type = some FieldType.string)
    ∧ (property.type = none →
        extractFieldMetadata fieldName property defs = none)
    ∧ (∀ t, property.type = some t → t ≠ "boolean" → t ≠ "integer" →
        t ≠ "number" → t ≠ "string" →
        extractFieldMetadata fieldName property defs = none) := by
  rw [extractFieldMetadata_of_resolveRef_none _ _ _ h]
  refine ⟨?_, ?_, ?_, ?_, ?_, ?_, ?_⟩
  · intro ht; simp [classifyType, ht]
  · intro ht; simp [classifyType, ht]
  · intro ht; simp [classifyType, ht]
  · intro es ht he hne
    simp only [classifyType, ht, he, Option.isSome_some]
    exact ⟨_, rfl, rfl, rfl⟩
  · intro ht he; simp [classifyType, ht, he]
  · intro ht; simp [classifyType, ht]
  · intro t ht h1 h2 h3 h4; simp [classifyType, ht, h1, h2, h3, h4]

/-- Witness for C2: a concrete boolean property, not classified by
reference resolution, classifies as boolean. -/
theorem C2_type_classifier_witness :
    resolveRef "x" sampleBoolProp none = none
    ∧ (extractFieldMetadata "x" sampleBoolProp none).map
        SchemaFieldMetadata.type = some FieldType.boolean :=
  ⟨rfl, (C2_type_classifier "x" sampleBoolProp none rfl).1 rfl⟩

/-- C3: the derived step is 1 for `integer` regardless of bounds; for
`number` it is 0.01 when both bounds exist and the range is below 1 and
0.1 otherwise (including a missing bound); no step for any other type;
and on the classifier path the descriptor's step is exactly the derived
step for its classified type and the property's bounds. -/
theorem C3_step_derivation :
    (∀ minimum maximum,
        deriveStep FieldType.integer minimum maximum = some 1)
    ∧ (∀ mn mx, mx - mn < 1 →
        deriveStep FieldType.number (some mn) (some mx) = some (1 / 100))
    ∧ (∀ mn mx, ¬ mx - mn < 1 →
        deriveStep FieldType.number (some mn) (some mx) = some (1 / 10))
    ∧ (∀ maximum, deriveStep FieldType.number none maximum = some (1 / 10))
    ∧ (∀ minimum, deriveStep FieldType.number minimum none = some (1 / 10))
    ∧ (∀ ty minimum maximum, ty ≠ FieldType.integer →
        ty ≠ FieldType.number → deriveStep ty minimum maximum = none)
    ∧ (∀ fieldName property defs m,
        extractFieldMetadata fieldName property defs = some m →
        resolveRef fieldName property defs = none →
        m.step = deriveStep m.type property.minimum property.maximum) := by
  refine ⟨?_, ?_, ?_, ?_, ?_, ?_, ?_⟩
  · intro mn mx; rfl
  · intro mn mx hlt; simp [deriveStep, hlt]
  · intro mn mx hlt; simp [deriveStep, hlt]
  · intro mx; cases mx <;> rfl
  · intro mn; cases mn <;> rfl
  · intro ty mn mx h1 h2; simp [deriveStep, h1, h2]
  · intro f p d m hm hr
    rw [extractFieldMetadata_of_resolveRef_none _ _ _ hr] at hm
    cases hc : classifyType p with
    | none => rw [hc] at hm; exact Option.noConfusion hm
    | some ty =>
        rw [hc, Option.map_some'] at hm
        obtain rfl := Option.some_inj.mp hm
        rfl

/-- Witness for C3: 0.01 for the narrow range [0, 0.8] and 0.1 for the
wide range [1, 20]. -/
theorem C3_step_derivation_witness :
    ((4 / 5 : Rat) - 0 < 1
      ∧ deriveStep FieldType.number (some 0) (some (4 / 5))
          = some (1 / 100))
    ∧ (¬ ((20 : Rat) - 1 < 1)
      ∧ deriveStep FieldType.number (some 1) (some 20) = some (1 / 10)) :=
  ⟨⟨by norm_num, C3_step_derivation.2.1 0 (4 / 5) (by norm_num)⟩,
   ⟨by norm_num, C3_step_derivation.2.2.1 1 20 (by norm_num)⟩⟩

/-- C4: a non-excluded property declaring a reference whose trailing path
segment resolves in the definitions table to a definition with a
non-empty enumeration yields an enum descriptor with the definition's
values in order and default/description from the property. -/
theorem C4_reference_resolution (fieldName refPath : String)
    (property : PipelineSchemaProperty)
    (ds : List (String × SchemaDefinition)) (definition : SchemaDefinition)
    (es : List JValue)
    (h1 : property.ref = some refPath) (h2 : refPath ≠ "")
    (h3 : lookupDef ds (refLookupKey refPath) = some definition)
    (h4 : definition.enum = some es) (_h5 : es ≠ []) :
    extractFieldMetadata fieldName property (some ds)
      = some { name := fieldName, type := FieldType.enum,
               default := property.default,
               description := property.description, minimum := none,
               maximum := none, enumValues := some es, step := none } := by
  unfold extractFieldMetadata resolveRef
  rw [h1]
  simp [h2, h3, h4]

/-- Witness for C4: the reference `#/$defs/Sampler` resolves to the
definition with enumeration `["euler", "dpm++"]`, in that order. -/
theorem C4_reference_resolution_witness :
    refLookupKey "#/$defs/Sampler" = "Sampler"
    ∧ extractFieldMetadata "sampler" sampleRefProp (some sampleDefsTable)
      = some { name := "sampler", type := FieldType.enum,
               default := some (JValue.str "euler"),
               description := some "sampler choice", minimum := none,
               maximum := none,
               enumValues := some [JValue.str "euler", JValue.str "dpm++"],
               step := none } :=
  ⟨by decide,
   C4_reference_resolution "sampler" "#/$defs/Sampler" sampleRefProp
     sampleDefsTable samplerDef [JValue.str "euler", JValue.str "dpm++"]
     rfl (by decide) (by decide) rfl (by decide)⟩

/-- C5 counterexample: the property `{type: "integer", enum: [5]}` in a
schema produces an output descriptor of type integer whose `enumValues`
is present and non-empty, so the claimed invariant (enumValues present
and non-empty only for enum descriptors) is false. -/
theorem C5_enum_values_counterexample :
    ¬ (∀ configSchema excludeFields k m,
        (k, m) ∈ extractCustomSchemaFields configSchema excludeFields →
        (m.type ≠ FieldType.enum → m.enumValues = none)
        ∧ (m.type = FieldType.enum → m.enumValues ≠ some [])) := by
  intro h
  have hmem : ("foo",
      { name := "foo", type := FieldType.integer, default := none,
        description := none, minimum := none, maximum := none,
        enumValues := some [JValue.num 5], step := some 1 })
      ∈ extractCustomSchemaFields (some sampleSchemaFull) [] := by decide
  have h2 := (h _ _ _ _ hmem).1 (by decide)
  exact Option.noConfusion h2

/-- C5 amended: in every produced descriptor, `enumValues` is present
(though possibly empty) when the type is enum; absent when the type is
string; and for boolean/integer/number descriptors it equals the source
property's inline `enum` field carried through unchanged (absent exactly
when the property declares none). -/
theorem C5_enum_values_amended (fieldName : String)
    (property : PipelineSchemaProperty)
    (defs : Option (List (String × SchemaDefinition)))
    (m : SchemaFieldMetadata)
    (h : extractFieldMetadata fieldName property defs = some m) :
    (m.type = FieldType.enum → ∃ es, m.enumValues = some es)
    ∧ (m.type = FieldType.string → m.enumValues = none)
    ∧ ((m.type = FieldType.boolean ∨ m.type = FieldType.integer ∨
        m.type = FieldType.number) → m.enumValues = property.enum) := by
  rcases extractFieldMetadata_some_cases _ _ _ _ h with hr | ⟨_, ty, hc, rfl⟩
  · obtain ⟨es, rfl⟩ := resolveRef_some_shape _ _ _ _ hr
    exact ⟨fun _ => ⟨es, rfl⟩, fun hs => FieldType.noConfusion hs,
      fun ho => by rcases ho with hh | hh | hh <;>
        exact FieldType.noConfusion hh⟩
  · refine ⟨?_, ?_, fun _ => rfl⟩
    · intro hty
      have hty2 : ty = FieldType.enum := hty
      rw [hty2] at hc
      obtain ⟨es, he⟩ := classifyType_enum_has_enum property hc
      exact ⟨es, he⟩
    · intro hty
      have hty2 : ty = FieldType.string := hty
      rw [hty2] at hc
      exact classifyType_string_no_enum property hc

/-- Witness for C5 amended: the integer-with-enum property's descriptor
carries the property's inline enumeration unchanged. -/
theorem C5_enum_values_amended_witness :
    ({ name := "foo", type := FieldType.integer, default := none,
       description := none, minimum := none, maximum := none,
       enumValues := some [JValue.num 5], step := some 1 }
        : SchemaFieldMetadata).enumValues = sampleIntEnumProp.enum :=
  (C5_enum_values_amended "foo" sampleIntEnumProp none
      { name := "foo", type := FieldType.integer, default := none,
        description := none, minimum := none, maximum := none,
        enumValues := some [JValue.num 5], step := some 1 }
      (by decide)).2.2 (Or.inr (Or.inl rfl))

/-- C6: extraction never raises — the throw-instrumented extractor, which
errors at every spot where the source could dereference `undefined`,
always returns `Except.ok` with the pure result: all failure paths
degrade to omission. -/
theorem C6_never_raises (configSchema : Option PipelineConfigSchema)
    (excludeFields : List String) :
    extractCustomSchemaFieldsE configSchema excludeFields
      = Except.ok (extractCustomSchemaFields configSchema excludeFields) := by
  match configSchema with
  | none => rfl
  | some cs =>
      unfold extractCustomSchemaFieldsE extractCustomSchemaFields
      cases hp : cs.properties with
      | none => simp [hp, derefProperties]
      | some props =>
          simp [hp, derefProperties, Bind.bind, Except.bind,
            extractLoopE_ok]

/-- C7: an absent schema, an absent property map, and an empty property
map each yield the empty mapping for every exclusion list, not an
error. -/
theorem C7_empty_schema (excludeFields : List String) :
    extractCustomSchemaFields none excludeFields = []
    ∧ (∀ d, extractCustomSchemaFields
        (some { properties := none, defs := d }) excludeFields = [])
    ∧ (∀ d, extractCustomSchemaFields
        (some { properties := some [], defs := d }) excludeFields = []) :=
  ⟨rfl, fun _ => rfl, fun _ => rfl⟩

/-- C8: extraction is deterministic — structurally equal inputs give
structurally equal outputs — and the output enumerates its keys in the
declared order of the schema's properties (the declared key list filtered
by the exclusion-and-classification test). -/
theorem C8_deterministic_ordered
    (configSchema1 configSchema2 : Option PipelineConfigSchema)
    (excl1 excl2 : List String)
    (hs : configSchema1 = configSchema2) (he : excl1 = excl2) :
    extractCustomSchemaFields configSchema1 excl1
      = extractCustomSchemaFields configSchema2 excl2
    ∧ (∀ props d,
        (extractCustomSchemaFields
            (some { properties := some props, defs := d }) excl1).map
          Prod.fst
        = (props.filter (keepsField excl1 d)).map Prod.fst) := by
  subst hs
  subst he
  exact ⟨rfl, fun props d => extract_keys_in_declared_order props d excl1⟩

/-- Witness for C8: repeated extraction on the concrete schema agrees,
and its keys come out in declared order, exclusions removed. -/
theorem C8_deterministic_ordered_witness :
    extractCustomSchemaFields (some sampleSchemaFull) []
      = extractCustomSchemaFields (some sampleSchemaFull) []
    ∧ (extractCustomSchemaFields (some sampleSchemaFull) []).map Prod.fst
      = ["cfg_scale", "foo", "sampler"] :=
  ⟨(C8_deterministic_ordered (some sampleSchemaFull) (some sampleSchemaFull)
      [] [] rfl rfl).1,
   ((C8_deterministic_ordered (some sampleSchemaFull) (some sampleSchemaFull)
      [] [] rfl rfl).2
      [("height", sampleIntProp), ("cfg_scale", sampleNumProp),
       ("foo", sampleIntEnumProp), ("sampler", sampleRefProp)]
      (some sampleDefsTable)).trans (by decide)⟩

/-- C9: every produced descriptor carries the source property's default
and description through unchanged (absent included) and is named by the
property's key, on both the reference path and the classifier path. -/
theorem C9_default_description_carried (fieldName : String)
    (property : PipelineSchemaProperty)
    (defs : Option (List (String × SchemaDefinition)))
    (m : SchemaFieldMetadata)
    (h : extractFieldMetadata fieldName property defs = some m) :
    m.name = fieldName ∧ m.default = property.default
    ∧ m.description = property.description := by
  rcases extractFieldMetadata_some_cases _ _ _ _ h with hr | ⟨_, ty, _, rfl⟩
  · obtain ⟨es, rfl⟩ := resolveRef_some_shape _ _ _ _ hr
    exact ⟨rfl, rfl, rfl⟩
  · exact ⟨rfl, rfl, rfl⟩

/-- Witness for C9: a concrete boolean property's descriptor keeps its
name, default and description. -/
theorem C9_default_description_carried_witness :
    ({ name := "x", type := FieldType.boolean,
       default := some (JValue.jbool true), description := none,
       minimum := none, maximum := none, enumValues := none,
       step := none } : SchemaFieldMetadata).default
      = sampleBoolProp.default :=
  (C9_default_description_carried "x" sampleBoolProp none
      { name := "x", type := FieldType.boolean,
        default := some (JValue.jbool true), description := none,
        minimum := none, maximum := none, enumValues := none,
        step := none }
      (by decide)).2.1

/-- C10: descriptors from the reference-resolution path carry no minimum,
maximum or step, even when the source property declares numeric bounds;
the bounds are copied onto the descriptor only on the classifier path. -/
theorem C10_ref_path_no_bounds (fieldName : String)
    (property : PipelineSchemaProperty)
    (defs : Option (List (String × SchemaDefinition))) :
    (∀ m, resolveRef fieldName property defs = some m →
        extractFieldMetadata fieldName property defs = some m
        ∧ m.minimum = none ∧ m.maximum = none ∧ m.step = none)
    ∧ (∀ m, resolveRef fieldName property defs = none →
        extractFieldMetadata fieldName property defs = some m →
        m.minimum = property.minimum ∧ m.maximum = property.maximum) := by
  constructor
  · intro m hr
    obtain ⟨es, rfl⟩ := resolveRef_some_shape _ _ _ _ hr
    refine ⟨?_, rfl, rfl, rfl⟩
    unfold extractFieldMetadata
    rw [hr]
  · intro m hr h
    rcases extractFieldMetadata_some_cases _ _ _ _ h with h2 | ⟨_, ty, _, rfl⟩
    · rw [hr] at h2
      exact Option.noConfusion h2
    · exact ⟨rfl, rfl⟩

/-- Witness for C10: the reference property declares bounds, yet its
descriptor has none. -/
theorem C10_ref_path_no_bounds_witness :
    sampleRefProp.minimum = some 0
    ∧ ({ name := "sampler", type := FieldType.enum,
         default := some (JValue.str "euler"),
         description := some "sampler choice", minimum := none,
         maximum := none,
         enumValues := some [JValue.str "euler", JValue.str "dpm++"],
         step := none } : SchemaFieldMetadata).minimum = none :=
  ⟨rfl,
   ((C10_ref_path_no_bounds "sampler" sampleRefProp
       (some sampleDefsTable)).1
       { name := "sampler", type := FieldType.enum,
         default := some (JValue.str "euler"),
         description := some "sampler choice", minimum := none,
         maximum := none,
         enumValues := some [JValue.str "euler", JValue.str "dpm++"],
         step := none }
       (by decide)).2.1⟩
